import Mathlib

/-!
Verification of the research_pal paper-summarization pipeline.

This file gives a shallow embedding, in Lean 4, of the parts of the
`research_pal` Python code base that the specification talks about:

* `research_pal/core/pdf_processor.py` — the text chunker `_chunk_text`;
* `research_pal/db/chroma_manager.py` — `add_paper` / `get_paper`;
* `research_pal/core/llm_interface.py` — model routing (`query_model`,
  `query_openai`, `query_google`), the tenacity retry policy, and the
  JSON post-processing of `merge_chunk_summaries`;
* `research_pal/core/summarizer.py` — `_generate_paper_id`,
  `determine_paper_domain`, `check_paper_exists` and the final record
  assembly of `summarize_paper`.

Python strings are modelled as `List Char` (`PyStr`), Python integers as
`Int` (so that negative indices behave as in Python), Python `None` /
exceptions via `Option` / `Except`.  External collaborators (HTTP
transport, `json.loads`, file system, the vector store's similarity
search) are taken as explicit function parameters.
-/

namespace ResearchPal

/-- Python strings, modelled as lists of characters. -/
abbrev PyStr := List Char

/-- The character class used by Python's `str.strip()` with no argument
(ASCII whitespace as relevant here: space, tab, newline, carriage
return, vertical tab, form feed). -/
def pyWs (c : Char) : Bool :=
  c = ' ' || c = '\t' || c = '\n' || c = '\r' || c = Char.ofNat 11 || c = Char.ofNat 12

/-- Python `s.strip()`: remove leading and trailing whitespace. -/
def pyStrip (s : PyStr) : PyStr :=
  ((s.dropWhile pyWs).reverse.dropWhile pyWs).reverse

/-- Python `s.strip(chars)`: remove leading and trailing characters
belonging to `chars`. -/
def pyStripChars (chars : List Char) (s : PyStr) : PyStr :=
  ((s.dropWhile (chars.contains ·)).reverse.dropWhile (chars.contains ·)).reverse

/-- Clamp a (possibly negative) Python slice index to `[0, n]`, as the
CPython slice machinery does: negative indices count from the end. -/
def clampIdx (n : Nat) (i : Int) : Nat :=
  if i < 0 then ((n : Int) + i).toNat else min i.toNat n

/-- Python `s[a:b]` with full negative-index and clamping semantics. -/
def pySlice (s : PyStr) (a b : Int) : PyStr :=
  (s.take (clampIdx s.length b)).drop (clampIdx s.length a)

/-- Python `s.find(sub, a, b)`: smallest index `j` with
`clamp a ≤ j`, `j + |sub| ≤ clamp b` and `sub` occurring at `j`;
`-1` when there is none. -/
def pyFind (s sub : PyStr) (a b : Int) : Int :=
  let lo := clampIdx s.length a
  let hi := clampIdx s.length b
  match (List.range' lo (hi - lo)).find?
      (fun j => decide (j + sub.length ≤ hi) && sub.isPrefixOf (s.drop j)) with
  | some j => (j : Int)
  | none => -1

/-- Python `s.find(sub)` (no bounds). -/
def pyFindFull (s sub : PyStr) : Int :=
  pyFind s sub 0 s.length

/-- Python `s.rfind(sub)` (no bounds): largest index of an occurrence,
`-1` when there is none. -/
def pyRFind (s sub : PyStr) : Int :=
  match (List.range (s.length + 1)).reverse.find?
      (fun j => decide (j + sub.length ≤ s.length) && sub.isPrefixOf (s.drop j)) with
  | some j => (j : Int)
  | none => -1

/-- Split at the first occurrence of `sep`: returns the part before the
first occurrence together with (`some`) the part after it, or the whole
string and `none` when `sep` does not occur.  This captures both
Python's `s.split(sep)[0]` and `s.split(sep, 1)`. -/
def splitFirst (sep : PyStr) : PyStr → PyStr × Option PyStr
  | [] => ([], none)
  | c :: rest =>
    if sep.isPrefixOf (c :: rest) then
      ([], some ((c :: rest).drop sep.length))
    else
      let p := splitFirst sep rest
      (c :: p.1, p.2)

/-- Python `sep.join(xs)`. -/
def pyJoin (sep : PyStr) (xs : List PyStr) : PyStr :=
  List.intercalate sep xs

/-- Python dict lookup `d[k]` / `d.get(k)` over an insertion-ordered
association list. -/
def dictGet {α : Type} : List (PyStr × α) → PyStr → Option α
  | [], _ => none
  | (k', v) :: rest, k => if k' = k then some v else dictGet rest k

/-- Python dict assignment `d[k] = v` over an insertion-ordered
association list: overwrite in place when the key exists, append
otherwise. -/
def dictSet {α : Type} : List (PyStr × α) → PyStr → α → List (PyStr × α)
  | [], k, v => [(k, v)]
  | (k', v') :: rest, k, v =>
    if k' = k then (k', v) :: rest else (k', v') :: dictSet rest k v

/-- The keys of a Python dict, in insertion order. -/
def dictKeys {α : Type} (d : List (PyStr × α)) : List PyStr :=
  d.map (·.1)

/- ### Basic lemmas about the string primitives -/

theorem clampIdx_le (n : Nat) (i : Int) : clampIdx n i ≤ n := by
  unfold clampIdx
  split
  · omega
  · exact min_le_right _ _

theorem clampIdx_eq_of_nonneg_le {n : Nat} {i : Int} (h0 : 0 ≤ i) (hn : i ≤ n) :
    (clampIdx n i : Int) = i := by
  unfold clampIdx
  split
  · omega
  · have h1 : i.toNat ≤ n := by omega
    simp [Nat.min_eq_left h1]
    omega

theorem pyFind_found {s sub : PyStr} {a b : Int} (h : pyFind s sub a b ≠ -1) :
    (clampIdx s.length a : Int) ≤ pyFind s sub a b ∧
      pyFind s sub a b + sub.length ≤ (clampIdx s.length b : Int) := by
  unfold pyFind at h ⊢
  set lo := clampIdx s.length a with hlo
  set hi := clampIdx s.length b with hhi
  rcases hfind : (List.range' lo (hi - lo)).find?
      (fun j => decide (j + sub.length ≤ hi) && sub.isPrefixOf (s.drop j)) with _ | j
  · simp [hfind] at h
  · have hmem := List.mem_of_find?_eq_some hfind
    have hpred := List.find?_some hfind
    have hj : lo ≤ j ∧ j < lo + (hi - lo) := List.mem_range'_1.mp hmem
    simp only [Bool.and_eq_true, decide_eq_true_eq] at hpred
    simp only [hfind]
    constructor
    · exact_mod_cast hj.1
    · exact_mod_cast hpred.1

theorem dropWhile_idem (p : Char → Bool) (l : List Char) :
    (l.dropWhile p).dropWhile p = l.dropWhile p := by
  induction l with
  | nil => simp
  | cons a l ih =>
    by_cases h : p a <;> simp [List.dropWhile_cons, h, ih]

theorem dropWhile_eq_self_of_head {p : Char → Bool} {l : List Char}
    (h : ∀ c, l.head? = some c → p c = false) : l.dropWhile p = l := by
  cases l with
  | nil => simp
  | cons a l =>
    have := h a rfl
    simp [List.dropWhile_cons, this]

theorem head?_dropWhile_false (p : Char → Bool) :
    ∀ (l : List Char) (c : Char), (l.dropWhile p).head? = some c → p c = false := by
  intro l
  induction l with
  | nil => intro c hc; simp at hc
  | cons a l ih =>
    intro c hc
    by_cases h : p a
    · rw [List.dropWhile_cons_of_pos h] at hc
      exact ih c hc
    · rw [List.dropWhile_cons_of_neg h] at hc
      simp only [List.head?_cons, Option.some.injEq] at hc
      subst hc
      simpa using h

theorem getLast?_dropWhile (p : Char → Bool) :
    ∀ (l : List Char), l.dropWhile p ≠ [] → (l.dropWhile p).getLast? = l.getLast? := by
  intro l
  induction l with
  | nil => intro h; simp at h
  | cons a l ih =>
    intro h
    by_cases hp : p a
    · rw [List.dropWhile_cons_of_pos hp] at h ⊢
      have hl : l ≠ [] := by
        intro hnil
        rw [hnil] at h
        simp at h
      rcases l with _ | ⟨b, l'⟩
      · exact absurd rfl hl
      · rw [ih h, List.getLast?_cons_cons]
    · rw [List.dropWhile_cons_of_neg hp]

/-- `pyStrip` is idempotent. -/
theorem pyStrip_idem (s : PyStr) : pyStrip (pyStrip s) = pyStrip s := by
  unfold pyStrip
  set A := s.dropWhile pyWs with hA
  set B := A.reverse.dropWhile pyWs with hB
  -- the inner dropWhile on `B.reverse` is the identity, because the head
  -- of `B.reverse` is the first non-whitespace character of `s`
  have hfront : B.reverse.dropWhile pyWs = B.reverse := by
    apply dropWhile_eq_self_of_head
    intro c hc
    have hBne : B ≠ [] := by
      intro hnil
      rw [hnil] at hc
      simp at hc
    have h1 : B.getLast? = some c := by
      rw [← List.head?_reverse]
      exact hc
    have h2 : A.reverse.getLast? = some c := by
      rw [← getLast?_dropWhile pyWs A.reverse (hB ▸ hBne), ← hB]
      exact h1
    have h3 : A.head? = some c := by
      rw [← List.getLast?_reverse]
      exact h2
    exact head?_dropWhile_false pyWs s c (hA ▸ h3)
  rw [hfront, List.reverse_reverse, hB, dropWhile_idem]

/-- `pyStrip` produces the empty string iff every character is whitespace. -/
theorem pyStrip_eq_nil_iff {s : PyStr} :
    pyStrip s = [] ↔ ∀ c ∈ s, pyWs c = true := by
  unfold pyStrip
  rw [List.reverse_eq_nil_iff, List.dropWhile_eq_nil_iff]
  constructor
  · intro h c hc
    by_cases hmem : c ∈ s.dropWhile pyWs
    · exact h c (by simpa using hmem)
    · -- c is in the dropped (whitespace) prefix
      have hsplit := List.takeWhile_append_dropWhile pyWs s
      rw [← hsplit] at hc
      rcases List.mem_append.mp hc with h1 | h2
      · exact List.mem_takeWhile_imp h1
      · exact absurd h2 hmem
  · intro h c hc
    have : c ∈ s.dropWhile pyWs := by simpa using hc
    exact h c (List.dropWhile_sublist pyWs |>.subset this)

/-!
### The chunker — `PDFProcessor._chunk_text` (pdf_processor.py, lines 127–164)

The Python loop

```
while start < len(text):
    end = min(start + self.chunk_size, len(text))
    if end < len(text):
        next_para = text.find('\n\n', end - 100, end + 100)
        if next_para != -1 and next_para < end + 100:
            end = next_para
        else:
            next_sentence = text.find('. ', end - 100, end + 100)
            if next_sentence != -1 and next_sentence < end + 100:
                end = next_sentence + 1
    chunk = text[start:end].strip()
    if chunk:
        chunks.append(chunk)
    start = end - self.chunk_overlap if end < len(text) else len(text)
```

is embedded with explicit positions of type `Int` (Python integers can
go negative here, and `str.find`/slicing then use from-the-end
indexing) and an explicit fuel parameter for the `while` loop; the
canonical entry point `chunk_text` supplies fuel `len(text) + 1`, which
is shown sufficient whenever `overlap + 100 < size`.
-/

/-- The boundary-aware adjusted end of the window starting at `start`
(the `end` variable after lines 141–154 of pdf_processor.py). -/
def chunkEnd (size : Int) (text : PyStr) (start : Int) : Int :=
  let n : Int := text.length
  let e0 := min (start + size) n
  if e0 < n then
    let nextPara := pyFind text ['\n', '\n'] (e0 - 100) (e0 + 100)
    if nextPara ≠ -1 ∧ nextPara < e0 + 100 then nextPara
    else
      let nextSentence := pyFind text ['.', ' '] (e0 - 100) (e0 + 100)
      if nextSentence ≠ -1 ∧ nextSentence < e0 + 100 then nextSentence + 1
      else e0
  else e0

/-- Line 162 of pdf_processor.py:
`start = end - self.chunk_overlap if end < len(text) else len(text)`. -/
def nextStart (size overlap : Int) (text : PyStr) (start : Int) : Int :=
  if chunkEnd size text start < (text.length : Int) then
    chunkEnd size text start - overlap
  else (text.length : Int)

/-- One iteration of the `while` loop: the stripped chunk
`text[start:end].strip()` together with the next window start. -/
def chunkStep (size overlap : Int) (text : PyStr) (start : Int) : PyStr × Int :=
  (pyStrip (pySlice text start (chunkEnd size text start)),
    nextStart size overlap text start)

/-- The chunking `while` loop, with fuel.  `none` means the fuel ran out
while `start < len(text)` still held (i.e. the real loop would keep
running past that point). -/
def chunkLoop (size overlap : Int) (text : PyStr) : Nat → Int → Option (List PyStr)
  | 0, start => if start < (text.length : Int) then none else some []
  | fuel + 1, start =>
    if start < (text.length : Int) then
      let p := chunkStep size overlap text start
      match chunkLoop size overlap text fuel p.2 with
      | none => none
      | some rest => some (if p.1.isEmpty then rest else p.1 :: rest)
    else some []

/-- `PDFProcessor._chunk_text`, run with canonical fuel `len(text) + 1`
(shown below to suffice whenever `overlap + 100 < size`). -/
def chunk_text (size overlap : Int) (text : PyStr) : Option (List PyStr) :=
  chunkLoop size overlap text (text.length + 1) 0

/-- The same loop, recording the `(start, end)` window of every
iteration instead of the chunks themselves. -/
def chunkWindows (size overlap : Int) (text : PyStr) : Nat → Int → Option (List (Int × Int))
  | 0, start => if start < (text.length : Int) then none else some []
  | fuel + 1, start =>
    if start < (text.length : Int) then
      match chunkWindows size overlap text fuel (nextStart size overlap text start) with
      | none => none
      | some rest => some ((start, chunkEnd size text start) :: rest)
    else some []

theorem chunkLoop_eq_windows (size overlap : Int) (text : PyStr) :
    ∀ (fuel : Nat) (start : Int),
      chunkLoop size overlap text fuel start =
        (chunkWindows size overlap text fuel start).map
          (fun ws => (ws.map (fun w => pyStrip (pySlice text w.1 w.2))).filter
            (fun c => !c.isEmpty)) := by
  intro fuel
  induction fuel with
  | zero =>
    intro start
    simp only [chunkLoop, chunkWindows]
    split <;> simp
  | succ fuel ih =>
    intro start
    simp only [chunkLoop, chunkWindows]
    split
    · rw [ih]
      rcases h : chunkWindows size overlap text fuel (nextStart size overlap text start)
          with _ | ws
      · simp [chunkStep, h]
      · simp only [chunkStep, h, Option.map_some', List.map_cons, List.filter_cons]
        by_cases he : (pyStrip (pySlice text start (chunkEnd size text start))).isEmpty
        · simp [he]
        · simp [he]
    · simp

theorem clampIdx_eq_toNat {n : Nat} {i : Int} (h0 : 0 ≤ i) (hn : i ≤ n) :
    clampIdx n i = i.toNat := by
  unfold clampIdx
  split <;> omega

theorem pySlice_eq_take_drop {text : PyStr} {a b : Int}
    (h0 : 0 ≤ a) (ha : a ≤ text.length) (hb0 : 0 ≤ b) (hbn : b ≤ text.length) :
    pySlice text a b = (text.take b.toNat).drop a.toNat := by
  unfold pySlice
  rw [clampIdx_eq_toNat h0 ha, clampIdx_eq_toNat hb0 hbn]

theorem pySlice_to_end {text : PyStr} {a : Int} (h0 : 0 ≤ a) (ha : a ≤ text.length) :
    pySlice text a (text.length : Int) = text.drop a.toNat := by
  rw [pySlice_eq_take_drop h0 ha (by omega) (by omega)]
  simp

theorem take_drop_append_drop {l : PyStr} {a b : Nat} (hab : a ≤ b) (hal : a ≤ l.length) :
    (l.take b).drop a ++ l.drop b = l.drop a := by
  have h := congrArg (List.drop a) (List.take_append_drop b l)
  rw [List.drop_append_eq_append_drop] at h
  have hz : a - (l.take b).length = 0 := by
    simp only [List.length_take]
    omega
  rw [hz, List.drop_zero] at h
  exact h

theorem mem_drop_of_le {l : PyStr} {c : Char} {a b : Nat} (hab : a ≤ b)
    (h : c ∈ l.drop b) : c ∈ l.drop a := by
  have heq : l.drop b = (l.drop a).drop (b - a) := by
    rw [List.drop_drop]
    congr 1
    omega
  rw [heq] at h
  exact ((l.drop a).drop_suffix (b - a)).subset h

/-- Case analysis of the boundary-aware end: either the window reaches
the end of the text, or the adjusted end stays within
`[start + size - 100, len)`.  Requires `100 < size` and `0 ≤ start`. -/
theorem chunkEnd_cases (size : Int) (text : PyStr) {start : Int}
    (hsize : 100 < size) (h0 : 0 ≤ start) :
    chunkEnd size text start = (text.length : Int) ∨
      (start + size - 100 ≤ chunkEnd size text start ∧
        chunkEnd size text start < (text.length : Int)) := by
  unfold chunkEnd
  set n : Int := (text.length : Int) with hn
  by_cases he0 : min (start + size) n < n
  · have hmin : min (start + size) n = start + size := by omega
    rw [if_pos he0]
    have hlow : (clampIdx text.length (min (start + size) n - 100) : Int) =
        min (start + size) n - 100 := by
      apply clampIdx_eq_of_nonneg_le <;> omega
    have hhi : (clampIdx text.length (min (start + size) n + 100) : Int) ≤ n := by
      have := clampIdx_le text.length (min (start + size) n + 100)
      omega
    by_cases hp : pyFind text ['\n', '\n'] (min (start + size) n - 100)
        (min (start + size) n + 100) ≠ -1 ∧
        pyFind text ['\n', '\n'] (min (start + size) n - 100)
          (min (start + size) n + 100) < min (start + size) n + 100
    · rw [if_pos hp]
      right
      have hb := pyFind_found hp.1
      rw [hlow] at hb
      constructor
      · omega
      · have : ([ '\n', '\n'] : PyStr).length = 2 := rfl
        omega
    · rw [if_neg hp]
      by_cases hq : pyFind text ['.', ' '] (min (start + size) n - 100)
          (min (start + size) n + 100) ≠ -1 ∧
          pyFind text ['.', ' '] (min (start + size) n - 100)
            (min (start + size) n + 100) < min (start + size) n + 100
      · rw [if_pos hq]
        right
        have hb := pyFind_found hq.1
        rw [hlow] at hb
        constructor
        · omega
        · have : (['.', ' '] : PyStr).length = 2 := rfl
          omega
      · rw [if_neg hq]
        right
        omega
  · rw [if_neg he0]
    left
    omega

/-- Progress: under `overlap + 100 < size` each loop iteration strictly
advances the window start, which stays at most `len(text)`. -/
theorem nextStart_progress {size overlap : Int} (text : PyStr) {start : Int}
    (ho : 0 ≤ overlap) (hs : overlap + 100 < size)
    (h0 : 0 ≤ start) (hlt : start < (text.length : Int)) :
    start + 1 ≤ nextStart size overlap text start ∧
      nextStart size overlap text start ≤ (text.length : Int) := by
  unfold nextStart
  rcases chunkEnd_cases size text (by omega) h0 with h | ⟨h1, h2⟩
  · rw [if_neg (by omega)]
    omega
  · rw [if_pos h2]
    omega

theorem chunkLoop_of_ge {size overlap : Int} {text : PyStr} {start : Int}
    (h : ¬ start < (text.length : Int)) :
    ∀ fuel, chunkLoop size overlap text fuel start = some [] := by
  intro fuel
  cases fuel <;> simp [chunkLoop, h]

/-- Fuel sufficiency: `len(text) - start` iterations always finish the
loop when `overlap + 100 < size`. -/
theorem chunkLoop_isSome (size overlap : Int) (text : PyStr)
    (ho : 0 ≤ overlap) (hs : overlap + 100 < size) :
    ∀ (fuel : Nat) (start : Int), 0 ≤ start →
      (text.length : Int) ≤ start + fuel →
      ∃ cs, chunkLoop size overlap text fuel start = some cs := by
  intro fuel
  induction fuel with
  | zero =>
    intro start h0 hle
    refine ⟨[], ?_⟩
    simp only [chunkLoop]
    rw [if_neg (by omega)]
  | succ fuel ih =>
    intro start h0 hle
    by_cases hlt : start < (text.length : Int)
    · have hp := nextStart_progress text ho hs h0 hlt
      obtain ⟨rest, hrest⟩ := ih (nextStart size overlap text start)
        (by omega) (by push_cast at hle ⊢; omega)
      refine ⟨if (chunkStep size overlap text start).1.isEmpty then rest
        else (chunkStep size overlap text start).1 :: rest, ?_⟩
      simp only [chunkLoop]
      rw [if_pos hlt]
      simp only [chunkStep] at hrest ⊢
      rw [hrest]
    · exact ⟨[], chunkLoop_of_ge hlt _⟩

/-- Document order: the windows produced by the loop have strictly
increasing start offsets. -/
theorem chunkWindows_pairwise {size overlap : Int} {text : PyStr}
    (ho : 0 ≤ overlap) (hs : overlap + 100 < size) :
    ∀ (fuel : Nat) (start : Int) (ws : List (Int × Int)), 0 ≤ start →
      chunkWindows size overlap text fuel start = some ws →
      (∀ w ∈ ws, start ≤ w.1) ∧ ws.Pairwise (fun a b => a.1 < b.1) := by
  intro fuel
  induction fuel with
  | zero =>
    intro start ws h0 h
    simp only [chunkWindows] at h
    split at h
    · exact absurd h (by simp)
    · cases h
      simp
  | succ fuel ih =>
    intro start ws h0 h
    simp only [chunkWindows] at h
    split at h
    · rename_i hlt
      rcases hrest : chunkWindows size overlap text fuel
          (nextStart size overlap text start) with _ | rest
      · rw [hrest] at h
        exact absurd h (by simp)
      · rw [hrest] at h
        cases h
        have hp := nextStart_progress text ho hs h0 hlt
        obtain ⟨hall, hpw⟩ := ih (nextStart size overlap text start) rest (by omega) hrest
        constructor
        · intro w hw
          rcases List.mem_cons.mp hw with h1 | h2
          · rw [h1]
          · have := hall w h2
            omega
        · refine List.Pairwise.cons ?_ hpw
          intro w hw
          have := hall w hw
          simp only
          omega
    · cases h
      simp

/-- If the suffix of the text from the current start still contains a
non-whitespace character, the remaining loop produces at least one
chunk. -/
theorem chunkLoop_ne_nil {size overlap : Int} {text : PyStr}
    (ho : 0 ≤ overlap) (hs : overlap + 100 < size) :
    ∀ (fuel : Nat) (start : Int) (cs : List PyStr), 0 ≤ start →
      chunkLoop size overlap text fuel start = some cs →
      pyStrip (text.drop start.toNat) ≠ [] → cs ≠ [] := by
  intro fuel
  induction fuel with
  | zero =>
    intro start cs h0 h hstrip
    simp only [chunkLoop] at h
    split at h
    · exact absurd h (by simp)
    · rename_i hge
      exfalso
      apply hstrip
      have : text.drop start.toNat = [] := by
        apply List.drop_eq_nil_of_le
        omega
      rw [this]
      rfl
  | succ fuel ih =>
    intro start cs h0 h hstrip
    simp only [chunkLoop] at h
    split at h
    · rename_i hlt
      rcases hrest : chunkLoop size overlap text fuel
          (nextStart size overlap text start) with _ | rest
      · simp only [chunkStep, hrest] at h
        exact absurd h (by simp)
      · simp only [chunkStep, hrest] at h
        cases h
        have hp := nextStart_progress text ho hs h0 hlt
        by_cases hemp : (pyStrip (pySlice text start (chunkEnd size text start))).isEmpty
        · rw [if_pos hemp]
          -- the current chunk is all whitespace; push the witness forward
          apply ih (nextStart size overlap text start) rest (by omega) hrest
          rcases chunkEnd_cases size text (by omega) h0 with hend | ⟨h1, h2⟩
          · -- chunkEnd = len: the current slice is the whole suffix,
            -- contradicting that it strips to empty
            exfalso
            rw [hend, pySlice_to_end h0 (by omega)] at hemp
            exact hstrip (List.isEmpty_iff.mp hemp)
          · -- chunkEnd < len: a non-whitespace char survives past chunkEnd
            have hse : start ≤ chunkEnd size text start := by omega
            obtain ⟨c, hc, hcws⟩ : ∃ c ∈ text.drop start.toNat, ¬ pyWs c = true := by
              by_contra hall
              push_neg at hall
              exact hstrip (pyStrip_eq_nil_iff.mpr hall)
            have hsplit : pySlice text start (chunkEnd size text start) ++
                text.drop (chunkEnd size text start).toNat = text.drop start.toNat := by
              rw [pySlice_eq_take_drop h0 (by omega) (by omega) (by omega)]
              exact take_drop_append_drop (by omega) (by omega)
            rw [← hsplit] at hc
            rcases List.mem_append.mp hc with hin | hout
            · exfalso
              have hall := pyStrip_eq_nil_iff.mp (List.isEmpty_iff.mp hemp)
              exact hcws (hall c hin)
            · have hnext : nextStart size overlap text start =
                  chunkEnd size text start - overlap := by
                unfold nextStart
                rw [if_pos h2]
              have hmem : c ∈ text.drop (nextStart size overlap text start).toNat := by
                exact mem_drop_of_le (by rw [hnext]; omega) hout
              intro hnil
              rw [pyStrip_eq_nil_iff] at hnil
              exact hcws (hnil c hmem)
        · rw [if_neg hemp]
          simp
    · rename_i hge
      exfalso
      apply hstrip
      have : text.drop start.toNat = [] := by
        apply List.drop_eq_nil_of_le
        omega
      rw [this]
      rfl

/-- A text shorter than the chunk size yields exactly one chunk: the
trimmed input (provided the trimmed input is non-blank). -/
theorem chunk_text_short (size overlap : Int) {text : PyStr}
    (hn : (text.length : Int) < size) (hne : pyStrip text ≠ []) :
    chunk_text size overlap text = some [pyStrip text] := by
  have htne : text ≠ [] := by
    intro h
    exact hne (by rw [h]; rfl)
  have hn0 : 0 < text.length := List.length_pos.mpr htne
  have he : chunkEnd size text 0 = (text.length : Int) := by
    unfold chunkEnd
    rw [if_neg (by omega)]
    omega
  have hns : nextStart size overlap text 0 = (text.length : Int) := by
    unfold nextStart
    rw [he, if_neg (by omega)]
  have hslice : pySlice text 0 (chunkEnd size text 0) = text := by
    rw [he, pySlice_to_end (by omega) (by omega)]
    rfl
  unfold chunk_text
  rcases fuel_eq : text.length + 1 with _ | fuel
  · omega
  · simp only [chunkLoop]
    rw [if_pos (by exact_mod_cast hn0)]
    simp only [chunkStep, hslice, hns]
    rw [chunkLoop_of_ge (by omega)]
    simp [List.isEmpty_iff, hne]

/-!
### Claims C6 and C7 — chunk coverage and chunker termination
-/

/-- A 40-character text containing an early paragraph break: the
boundary-aware adjustment pulls `end` back to position 2, the next start
becomes `2 - overlap = -3`, and the loop is stuck there forever (with
`size = 10`, `overlap = 5`, which satisfies the claimed `overlap < size`
bound). -/
def c7Text : PyStr := 'a' :: 'b' :: '\n' :: '\n' :: List.replicate 36 'c'

theorem chunkLoop_c7_stuck : ∀ fuel, chunkLoop 10 5 c7Text fuel (-3) = none := by
  intro fuel
  induction fuel with
  | zero =>
    simp only [chunkLoop]
    rw [if_pos (by decide)]
  | succ fuel ih =>
    simp only [chunkLoop]
    rw [if_pos (by decide)]
    have hstep : (chunkStep 10 5 c7Text (-3)).2 = -3 := by decide
    rw [hstep, ih]

/-- C7 counterexample: with `size = 10 > 5 = overlap` (so the claimed
side condition `overlap < size` holds) the chunking loop of
`_chunk_text` does **not** terminate on `c7Text`: no amount of fuel
makes the loop reach `start ≥ len(text)`.  (Python: `start` falls to
`-3` and is recomputed as `-3` forever.) -/
theorem C7_counterexample :
    ((5 : Int) < 10) ∧
      ¬ ∃ (fuel : Nat) (cs : List PyStr), chunkLoop 10 5 c7Text fuel 0 = some cs := by
  refine ⟨by decide, ?_⟩
  rintro ⟨fuel, cs, h⟩
  cases fuel with
  | zero =>
    simp only [chunkLoop] at h
    rw [if_pos (by decide)] at h
    exact absurd h (by simp)
  | succ fuel =>
    simp only [chunkLoop] at h
    rw [if_pos (by decide)] at h
    have hstep : (chunkStep 10 5 c7Text 0).2 = -3 := by decide
    rw [hstep, chunkLoop_c7_stuck fuel] at h
    exact absurd h (by simp)

/-- **C7** (amended): for every text and every `(size, overlap)` with
`0 ≤ overlap` and `overlap + 100 < size` (the lookback window of the
boundary-aware adjustment is 100 characters, so `overlap < size` alone
is not enough), the chunking loop of `_chunk_text` terminates. -/
theorem chunk_text_terminates (size overlap : Int) (text : PyStr)
    (ho : 0 ≤ overlap) (hs : overlap + 100 < size) :
    ∃ cs, chunk_text size overlap text = some cs := by
  apply chunkLoop_isSome size overlap text ho hs (text.length + 1) 0 le_rfl
  push_cast
  omega

theorem chunk_text_terminates_witness :
    ((0 : Int) ≤ 200) ∧ ((200 : Int) + 100 < 8000) ∧
      ∃ cs, chunk_text 8000 200 ("abc".toList) = some cs :=
  ⟨by decide, by decide, chunk_text_terminates 8000 200 ("abc".toList) (by decide) (by decide)⟩

/-- C6 counterexample: with valid parameters in the claimed sense
(`overlap = 0 < 200 = size`) and the non-empty, whitespace-only input
`" "`, `_chunk_text` returns the **empty** chunk sequence — refuting
both "non-empty chunk sequence whenever the input text is non-empty"
and "a text shorter than `size` yields exactly one chunk equal to the
trimmed input". -/
theorem C6_counterexample :
    ((0 : Int) < 200) ∧ (" ".toList ≠ ([] : PyStr)) ∧
      ((" ".toList.length : Int) < 200) ∧
      chunk_text 200 0 (" ".toList) = some [] ∧
      some ([] : List PyStr) ≠ some [pyStrip (" ".toList)] := by
  refine ⟨by decide, by decide, by decide, by decide, by decide⟩

/-- **C6** (amended): for every text and `(size, overlap)` with
`0 ≤ overlap` and `overlap + 100 < size`, `_chunk_text` returns a chunk
list in which every chunk is non-empty and trim-invariant, the chunks
are the non-blank trims of a window list with strictly increasing start
offsets (document order), the chunk list is non-empty whenever the
*trimmed* input is non-empty, and a text shorter than `size` whose trim
is non-blank yields exactly one chunk: the trimmed input. -/
theorem chunk_text_spec (size overlap : Int) (text : PyStr)
    (ho : 0 ≤ overlap) (hs : overlap + 100 < size) :
    ∃ (cs : List PyStr) (ws : List (Int × Int)),
      chunk_text size overlap text = some cs ∧
      chunkWindows size overlap text (text.length + 1) 0 = some ws ∧
      cs = (ws.map (fun w => pyStrip (pySlice text w.1 w.2))).filter (fun c => !c.isEmpty) ∧
      ws.Pairwise (fun a b => a.1 < b.1) ∧
      (∀ c ∈ cs, c ≠ [] ∧ pyStrip c = c) ∧
      (pyStrip text ≠ [] → cs ≠ []) ∧
      ((text.length : Int) < size → pyStrip text ≠ [] → cs = [pyStrip text]) := by
  obtain ⟨cs, hcs⟩ := chunkLoop_isSome size overlap text ho hs (text.length + 1) 0 le_rfl
    (by push_cast; omega)
  have hw := chunkLoop_eq_windows size overlap text (text.length + 1) 0
  rw [hcs] at hw
  obtain ⟨ws, hws, hfw⟩ := Option.map_eq_some'.mp hw.symm
  refine ⟨cs, ws, hcs, hws, hfw.symm, ?_, ?_, ?_, ?_⟩
  · exact (chunkWindows_pairwise ho hs (text.length + 1) 0 ws le_rfl hws).2
  · intro c hc
    rw [hfw.symm] at hc
    have hne : ¬ c.isEmpty := by
      have := List.of_mem_filter hc
      simpa using this
    have hmem := List.mem_of_mem_filter hc
    obtain ⟨w, _, hwc⟩ := List.mem_map.mp hmem
    constructor
    · simpa using hne
    · rw [← hwc, pyStrip_idem]
  · intro hne
    apply chunkLoop_ne_nil ho hs (text.length + 1) 0 cs le_rfl hcs
    simpa using hne
  · intro hshort hnb
    have h := chunk_text_short size overlap hshort hnb
    unfold chunk_text at h
    rw [hcs] at h
    exact Option.some_injective _ h

theorem chunk_text_spec_witness :
    chunk_text 200 0 ("hi".toList) = some ["hi".toList] := by
  obtain ⟨cs, ws, h1, _, _, _, _, _, h7⟩ :=
    chunk_text_spec 200 0 ("hi".toList) (by decide) (by decide)
  have hcs : cs = [pyStrip ("hi".toList)] := h7 (by decide) (by decide)
  rw [h1, hcs]
  rfl

/-!
### The storage layer — `ChromaManager` (chroma_manager.py)

`add_paper` (lines 28–92) serializes the paper into a `documentText`
string plus a metadata map and upserts them under `paper_id`;
`get_paper` (lines 94–139) parses the stored document text back.  The
vector store itself is modelled as an insertion-ordered association
list keyed by `paper_id`; `upsert` is `dictSet`.
-/

/-- A Python value as stored in a record: a string, a list of strings,
a boolean, or `None`. -/
inductive PyVal where
  | str (s : PyStr)
  | list (xs : List PyStr)
  | bool (b : Bool)
  | none
deriving DecidableEq, Repr

/-- Python `text.split(sep)` for a single-character separator
(used with `"\n"` and `"|"`). -/
def pySplitChar (sep : Char) : PyStr → List PyStr
  | [] => [[]]
  | c :: rest =>
    match pySplitChar sep rest with
    | [] => [[c]]
    | h :: t => if c = sep then [] :: h :: t else (c :: h) :: t

/-- The section names recognised by `get_paper`'s parser (line 111). -/
def docSectionNames : List PyStr :=
  (["summary", "takeaways", "architecture", "important_ideas",
    "future_ideas", "background", "math_formulations",
    "similar_papers", "novelty", "domain"]).map String.toList

/-- The four list-valued fields re-split on the join delimiter
(line 133). -/
def listFields : List PyStr :=
  (["takeaways", "important_ideas", "future_ideas", "similar_papers"]).map String.toList

/-- The metadata keys written by `add_paper` (lines 62–68). -/
def metadataKeys : List PyStr :=
  (["title", "filepath", "domain", "has_architecture", "has_math"]).map String.toList

/-- The arguments of `ChromaManager.add_paper`. -/
structure AddPaperArgs where
  paper_id : PyStr
  title : PyStr
  filepath : PyStr
  summary : PyStr
  takeaways : List PyStr
  architecture : Option PyStr := Option.none
  important_ideas : Option (List PyStr) := Option.none
  future_ideas : Option (List PyStr) := Option.none
  background : Option PyStr := Option.none
  math_formulations : Option PyStr := Option.none
  similar_papers : Option (List PyStr) := Option.none
  novelty : Option PyStr := Option.none
  domain : Option PyStr := some ("Unknown".toList)
deriving DecidableEq

/-- Python `" | ".join(xs) if xs else ""` for an optional list. -/
def optJoin (o : Option (List PyStr)) : PyStr :=
  match o with
  | some xs => if xs.isEmpty then [] else pyJoin (" | ".toList) xs
  | Option.none => []

/-- The `document` dict of `add_paper` (lines 71–82), in insertion
order.  A `None` domain is represented by the empty string: both are
falsy, so they are filtered out identically when the document text is
assembled, and the value is never rendered otherwise. -/
def addPaperDocument (a : AddPaperArgs) : List (PyStr × PyStr) :=
  [("summary".toList, a.summary),
   ("takeaways".toList, if a.takeaways.isEmpty then [] else pyJoin (" | ".toList) a.takeaways),
   ("architecture".toList, a.architecture.getD []),
   ("important_ideas".toList, optJoin a.important_ideas),
   ("future_ideas".toList, optJoin a.future_ideas),
   ("background".toList, a.background.getD []),
   ("math_formulations".toList, a.math_formulations.getD []),
   ("similar_papers".toList, optJoin a.similar_papers),
   ("novelty".toList, a.novelty.getD []),
   ("domain".toList, a.domain.getD [])]

/-- Line 85: `document_text = " ".join(f"{k}: {v}" for k, v in
document.items() if v)` — note the join separator is a **space**, not a
newline. -/
def documentText (a : AddPaperArgs) : PyStr :=
  pyJoin (" ".toList)
    (((addPaperDocument a).filter (fun kv => !kv.2.isEmpty)).map
      (fun kv => kv.1 ++ (": ".toList) ++ kv.2))

/-- The metadata map of `add_paper` (lines 62–68). -/
def addPaperMetadata (a : AddPaperArgs) : List (PyStr × PyVal) :=
  [("title".toList, .str a.title),
   ("filepath".toList, .str a.filepath),
   ("domain".toList, match a.domain with | some d => .str d | Option.none => .none),
   ("has_architecture".toList, .bool a.architecture.isSome),
   ("has_math".toList, .bool a.math_formulations.isSome)]

/-- One stored entry of the papers collection. -/
structure StoredPaper where
  document : PyStr
  metadata : List (PyStr × PyVal)
deriving DecidableEq

/-- The papers collection, keyed by `paper_id`. -/
abbrev ChromaStore := List (PyStr × StoredPaper)

/-- `ChromaManager.add_paper`: upsert the serialized paper. -/
def add_paper (store : ChromaStore) (a : AddPaperArgs) : ChromaStore :=
  dictSet store a.paper_id ⟨documentText a, addPaperMetadata a⟩

/-- The line-parsing loop of `get_paper` (lines 106–130): walk the
lines, opening a new section whenever a line starts with a recognised
`name: ` marker, otherwise appending the line to the current section. -/
def parseDocLoop : List PyStr → List (PyStr × PyStr) → Option PyStr → List PyStr →
    List (PyStr × PyStr)
  | [], secs, cur, content =>
    match cur with
    | some c => dictSet secs c (pyJoin ['\n'] content)
    | Option.none => secs
  | line :: rest, secs, cur, content =>
    let sf := splitFirst (": ".toList) line
    if sf.2.isSome ∧ (sf.1.map Char.toLower) ∈ docSectionNames then
      let secs' := match cur with
        | some c => dictSet secs c (pyJoin ['\n'] content)
        | Option.none => secs
      parseDocLoop rest secs' (some (sf.1.map Char.toLower))
        (match sf.2 with | some after => [after] | Option.none => [])
    else
      parseDocLoop rest secs cur
        (match cur with | some _ => content ++ [line] | Option.none => content)

/-- Parse a stored document text into its sections. -/
def parseSections (document : PyStr) : List (PyStr × PyStr) :=
  parseDocLoop (pySplitChar '\n' document) [] Option.none []

/-- Lines 133–135: re-split the four list fields on `"|"`, strip each
item, and drop blank items. -/
def processListFields (secs : List (PyStr × PyStr)) : List (PyStr × PyVal) :=
  secs.map (fun kv =>
    (kv.1,
      if kv.1 ∈ listFields then
        PyVal.list (((pySplitChar '|' kv.2).map pyStrip).filter (fun i => !i.isEmpty))
      else PyVal.str kv.2))

/-- `ChromaManager.get_paper`: fetch by id, parse the document text,
process list fields, and merge `{**sections, **metadata}` (metadata
values overwrite parsed sections on key collision, and new metadata
keys are appended). -/
def get_paper (store : ChromaStore) (paper_id : PyStr) : Option (List (PyStr × PyVal)) :=
  match dictGet store paper_id with
  | Option.none => Option.none
  | some sp =>
    let sections := processListFields (parseSections sp.document)
    some (sp.metadata.foldl (fun acc kv => dictSet acc kv.1 kv.2) sections)

/-!
### `PaperSummarizer.check_paper_exists` (summarizer.py, lines 126–178)

The path normalization (`os.path.abspath(os.path.expanduser(...))`),
`os.path.basename`, the title extraction from the PDF, and the
similarity search backing `search_papers` are external collaborators,
passed as function parameters.  The loop body (lines 147–174) is
embedded faithfully; every `return` inside it returns
`paper.get("paper_id")`.
-/

/-- Python's substring test `sub in s`. -/
def pyInfix (sub s : PyStr) : Bool :=
  (List.range (s.length + 1)).any (fun j => sub.isPrefixOf (s.drop j))

def check_paper_exists_loop (normalize basename extractTitle : PyStr → PyStr)
    (normalized_path : PyStr) : List (List (PyStr × PyVal)) → Option PyVal
  | [] => Option.none
  | paper :: rest =>
    let paper_path := match dictGet paper ("filepath".toList) with
      | some (.str s) => s
      | _ => []
    if !paper_path.isEmpty then
      let pp := normalize paper_path
      if pp = normalized_path then dictGet paper ("paper_id".toList)
      else if basename pp = basename normalized_path then
        let paper_title := match dictGet paper ("title".toList) with
          | some (.str s) => s
          | _ => []
        if (!paper_title.isEmpty) ∧ paper_title.length > 5 then
          let title := extractTitle normalized_path
          if ((!title.isEmpty) ∧ pyInfix paper_title title) ∨ pyInfix title paper_title then
            dictGet paper ("paper_id".toList)
          else check_paper_exists_loop normalize basename extractTitle normalized_path rest
        else check_paper_exists_loop normalize basename extractTitle normalized_path rest
      else check_paper_exists_loop normalize basename extractTitle normalized_path rest
    else check_paper_exists_loop normalize basename extractTitle normalized_path rest

def check_paper_exists (normalize basename extractTitle : PyStr → PyStr)
    (search : PyStr → List (List (PyStr × PyVal))) (filepath : PyStr) : Option PyVal :=
  let normalized_path := normalize filepath
  check_paper_exists_loop normalize basename extractTitle normalized_path
    (search (basename normalized_path))

/- ### Dictionary lemmas -/

theorem dictGet_eq_none_iff {α : Type} (d : List (PyStr × α)) (k : PyStr) :
    dictGet d k = Option.none ↔ k ∉ dictKeys d := by
  induction d with
  | nil =>
    constructor
    · intro _ h
      simp [dictKeys] at h
    · intro _
      rfl
  | cons kv rest ih =>
    obtain ⟨k', v⟩ := kv
    simp only [dictGet, dictKeys, List.map_cons, List.mem_cons]
    by_cases h : k' = k
    · rw [if_pos h]
      constructor
      · intro hc
        exact absurd hc (by simp)
      · intro hc
        exact absurd (Or.inl h.symm) hc
    · rw [if_neg h]
      rw [ih]
      constructor
      · intro h1 h2
        rcases h2 with h2 | h2
        · exact h (h2.symm)
        · exact h1 h2
      · intro h1 h2
        exact h1 (Or.inr h2)

theorem dictGet_mem {α : Type} {d : List (PyStr × α)} {k : PyStr} {v : α}
    (h : dictGet d k = some v) : (k, v) ∈ d := by
  induction d with
  | nil => exact absurd h (by simp [dictGet])
  | cons kv rest ih =>
    obtain ⟨k', v'⟩ := kv
    by_cases hk : k' = k
    · rw [dictGet, if_pos hk] at h
      have hv : v' = v := by
        injection h
      rw [← hk, ← hv]
      exact List.mem_cons_self _ _
    · rw [dictGet, if_neg hk] at h
      exact List.mem_cons_of_mem _ (ih h)

theorem dictKeys_dictSet_subset {α : Type} (d : List (PyStr × α)) (k : PyStr) (v : α) :
    ∀ k' ∈ dictKeys (dictSet d k v), k' ∈ dictKeys d ∨ k' = k := by
  induction d with
  | nil =>
    intro k' h
    simp only [dictSet, dictKeys, List.map_cons, List.map_nil, List.mem_singleton] at h
    exact Or.inr h
  | cons kv rest ih =>
    obtain ⟨k₀, v₀⟩ := kv
    intro k' h
    by_cases hk : k₀ = k
    · rw [dictSet, if_pos hk] at h
      simp only [dictKeys, List.map_cons, List.mem_cons] at h ⊢
      rcases h with h | h
      · exact Or.inl (Or.inl h)
      · exact Or.inl (Or.inr h)
    · rw [dictSet, if_neg hk] at h
      simp only [dictKeys, List.map_cons, List.mem_cons] at h ⊢
      rcases h with h | h
      · exact Or.inl (Or.inl h)
      · rcases ih k' h with h' | h'
        · exact Or.inl (Or.inr h')
        · exact Or.inr h'

theorem foldl_dictSet_keys {α : Type} (ms : List (PyStr × α)) :
    ∀ (acc : List (PyStr × α)) (k : PyStr),
      k ∈ dictKeys (ms.foldl (fun acc kv => dictSet acc kv.1 kv.2) acc) →
      k ∈ dictKeys acc ∨ k ∈ ms.map (·.1) := by
  induction ms with
  | nil =>
    intro acc k h
    exact Or.inl h
  | cons m ms ih =>
    intro acc k h
    simp only [List.foldl_cons] at h
    rcases ih (dictSet acc m.1 m.2) k h with h' | h'
    · rcases dictKeys_dictSet_subset acc m.1 m.2 k h' with h'' | h''
      · exact Or.inl h''
      · refine Or.inr ?_
        rw [List.map_cons, h'']
        exact List.mem_cons_self _ _
    · refine Or.inr ?_
      rw [List.map_cons]
      exact List.mem_cons_of_mem _ h'

theorem parseDocLoop_keys :
    ∀ (lines : List PyStr) (secs : List (PyStr × PyStr)) (cur : Option PyStr)
      (content : List PyStr),
      (∀ k ∈ dictKeys secs, k ∈ docSectionNames) →
      (∀ c, cur = some c → c ∈ docSectionNames) →
      ∀ k ∈ dictKeys (parseDocLoop lines secs cur content), k ∈ docSectionNames := by
  intro lines
  induction lines with
  | nil =>
    intro secs cur content hsecs hcur k hk
    simp only [parseDocLoop] at hk
    rcases cur with _ | c
    · exact hsecs k hk
    · rcases dictKeys_dictSet_subset secs c _ k hk with h | h
      · exact hsecs k h
      · exact h ▸ hcur c rfl
  | cons line rest ih =>
    intro secs cur content hsecs hcur k hk
    simp only [parseDocLoop] at hk
    split at hk
    · rename_i hcond
      refine ih _ _ _ ?_ ?_ k hk
      · intro k' hk'
        rcases cur with _ | c
        · exact hsecs k' hk'
        · rcases dictKeys_dictSet_subset secs c _ k' hk' with h | h
          · exact hsecs k' h
          · exact h ▸ hcur c rfl
      · intro c hc
        cases hc
        exact hcond.2
    · exact ih _ _ _ hsecs hcur k hk

theorem dictKeys_processListFields (secs : List (PyStr × PyStr)) :
    dictKeys (processListFields secs) = dictKeys secs := by
  simp [processListFields, dictKeys, List.map_map, Function.comp]

/-- All keys of a record returned by `get_paper` come from the parsed
section names or the metadata map written by `add_paper`. -/
theorem get_paper_keys {store : ChromaStore} {pid : PyStr} {rec : List (PyStr × PyVal)}
    (hwf : ∀ e ∈ store, ∃ a : AddPaperArgs, (e : PyStr × StoredPaper).2.metadata = addPaperMetadata a)
    (h : get_paper store pid = some rec) :
    ∀ k ∈ dictKeys rec, k ∈ docSectionNames ∨ k ∈ metadataKeys := by
  unfold get_paper at h
  rcases hget : dictGet store pid with _ | sp
  · rw [hget] at h
    exact absurd h (by simp)
  · rw [hget] at h
    simp only [Option.some.injEq] at h
    subst h
    intro k hk
    rcases foldl_dictSet_keys sp.metadata _ k hk with h' | h'
    · rw [dictKeys_processListFields] at h'
      exact Or.inl (parseDocLoop_keys _ [] Option.none [] (by simp [dictKeys]) (by simp) k h')
    · obtain ⟨a, ha⟩ := hwf (pid, sp) (dictGet_mem hget)
      right
      rw [ha] at h'
      simpa [addPaperMetadata, metadataKeys] using h'

theorem check_paper_exists_loop_none (normalize basename extractTitle : PyStr → PyStr)
    (np : PyStr) :
    ∀ (papers : List (List (PyStr × PyVal))),
      (∀ p ∈ papers, dictGet p ("paper_id".toList) = Option.none) →
      check_paper_exists_loop normalize basename extractTitle np papers = Option.none := by
  intro papers
  induction papers with
  | nil =>
    intro _
    simp [check_paper_exists_loop]
  | cons paper rest ih =>
    intro hp
    have hhead : dictGet paper ("paper_id".toList) = Option.none :=
      hp paper (List.mem_cons_self _ _)
    have htail := ih (fun p h => hp p (List.mem_cons_of_mem _ h))
    simp only [check_paper_exists_loop]
    split_ifs <;> first | exact hhead | exact htail

/-!
### Claims C2 and C10 — storage round trip and the missing `paper_id` key
-/

/-- A concrete `add_paper` call with every field supplied. -/
def c2Args : AddPaperArgs :=
  { paper_id := "p1".toList, title := "T".toList, filepath := "f.pdf".toList,
    summary := "SUM".toList, takeaways := ["t1".toList, "t2".toList],
    architecture := some ("ARCH".toList), important_ideas := some [("i1".toList)],
    future_ideas := some [("f1".toList)], background := some ("BG".toList),
    math_formulations := some ("MF".toList), similar_papers := some [("s1".toList)],
    novelty := some ("NOV".toList), domain := some ("D".toList) }

/-- What `get_paper` actually returns for `c2Args`: because `add_paper`
joins the serialized fields with spaces (line 85) while `get_paper`
splits on newlines (line 110), the whole document lands in the
`summary` section and no other section is recovered. -/
def c2Record : List (PyStr × PyVal) :=
  [("summary".toList, .str (String.toList
      ("SUM takeaways: t1 | t2 architecture: ARCH important_ideas: i1 future_ideas: f1 background: BG math_formulations: MF similar_papers: s1 novelty: NOV domain: D"))),
   ("title".toList, .str ("T".toList)),
   ("filepath".toList, .str ("f.pdf".toList)),
   ("domain".toList, .str ("D".toList)),
   ("has_architecture".toList, .bool true),
   ("has_math".toList, .bool true)]

set_option maxRecDepth 40000 in
/-- **C2** (code bug): the storage round trip does **not** deserialize
the stored document back into the named fields.  Writing a fully
populated paper and reading it back yields a record whose `summary`
field contains the entire space-joined serialization (all other fields
glued into it) and which has no `takeaways` key at all — because the
serializer joins `"k: v"` fragments with `" "` while the parser splits
the document on `"\n"`. -/
theorem C2_roundtrip_bug :
    get_paper (add_paper [] c2Args) ("p1".toList) = some c2Record ∧
      dictGet c2Record ("takeaways".toList) = Option.none ∧
      dictGet c2Record ("summary".toList) ≠ some (PyVal.str ("SUM".toList)) :=
  ⟨by decide, by decide, by decide⟩

/-- A minimal stored paper used to witness C10. -/
def c10Args : AddPaperArgs :=
  { paper_id := "w1".toList, title := "Ti".toList, filepath := "f.pdf".toList,
    summary := "S".toList, takeaways := [] }

/-- The record `get_paper` returns for `c10Args`. -/
def c10Record : List (PyStr × PyVal) :=
  [("summary".toList, .str ("S domain: Unknown".toList)),
   ("title".toList, .str ("Ti".toList)),
   ("filepath".toList, .str ("f.pdf".toList)),
   ("domain".toList, .str ("Unknown".toList)),
   ("has_architecture".toList, .bool false),
   ("has_math".toList, .bool false)]

/-- **C10** (confirmed): a record returned by `get_paper` (over a store
written by `add_paper`) carries only parsed section keys and the five
metadata keys — never a `paper_id` key; consequently
`check_paper_exists` always returns `None` (it only ever returns
`paper.get("paper_id")`), even when a stored record's normalized
filepath exactly matches the queried path. -/
theorem C10_no_paper_id :
    (∀ (store : ChromaStore) (pid : PyStr) (rec : List (PyStr × PyVal)),
      (∀ e ∈ store, ∃ a : AddPaperArgs,
        (e : PyStr × StoredPaper).2.metadata = addPaperMetadata a) →
      get_paper store pid = some rec →
      (∀ k ∈ dictKeys rec, k ∈ docSectionNames ∨ k ∈ metadataKeys) ∧
        dictGet rec ("paper_id".toList) = Option.none) ∧
    (∀ (normalize basename extractTitle : PyStr → PyStr)
      (search : PyStr → List (List (PyStr × PyVal))) (fp : PyStr),
      (∀ q p, p ∈ search q → ∃ (store : ChromaStore) (pid : PyStr),
        (∀ e ∈ store, ∃ a : AddPaperArgs,
          (e : PyStr × StoredPaper).2.metadata = addPaperMetadata a) ∧
        get_paper store pid = some p) →
      check_paper_exists normalize basename extractTitle search fp = Option.none) := by
  have hpart1 : ∀ (store : ChromaStore) (pid : PyStr) (rec : List (PyStr × PyVal)),
      (∀ e ∈ store, ∃ a : AddPaperArgs,
        (e : PyStr × StoredPaper).2.metadata = addPaperMetadata a) →
      get_paper store pid = some rec →
      (∀ k ∈ dictKeys rec, k ∈ docSectionNames ∨ k ∈ metadataKeys) ∧
        dictGet rec ("paper_id".toList) = Option.none := by
    intro store pid rec hwf h
    have hkeys := get_paper_keys hwf h
    refine ⟨hkeys, ?_⟩
    rw [dictGet_eq_none_iff]
    intro hmem
    rcases hkeys _ hmem with h' | h'
    · exact absurd h' (by decide)
    · exact absurd h' (by decide)
  refine ⟨hpart1, ?_⟩
  intro normalize basename extractTitle search fp hsearch
  unfold check_paper_exists
  apply check_paper_exists_loop_none
  intro p hp
  obtain ⟨store, pid, hwf, hgp⟩ := hsearch _ p hp
  exact (hpart1 store pid p hwf hgp).2

theorem C10_no_paper_id_witness :
    dictGet c10Record ("paper_id".toList) = Option.none ∧
      check_paper_exists (fun s => s) (fun s => s) (fun _ => [])
        (fun _ => [c10Record]) ("f.pdf".toList) = Option.none := by
  have hwf : ∀ e ∈ add_paper [] c10Args, ∃ a : AddPaperArgs,
      (e : PyStr × StoredPaper).2.metadata = addPaperMetadata a := by
    intro e he
    have he' : e = (c10Args.paper_id,
        (⟨documentText c10Args, addPaperMetadata c10Args⟩ : StoredPaper)) := by
      simpa [add_paper, dictSet] using he
    rw [he']
    exact ⟨c10Args, rfl⟩
  have h := C10_no_paper_id
  constructor
  · exact (h.1 (add_paper [] c10Args) ("w1".toList) c10Record hwf (by decide)).2
  · apply h.2
    intro q p hp
    have hp' : p = c10Record := by simpa using hp
    subst hp'
    exact ⟨add_paper [] c10Args, ("w1".toList), hwf, by decide⟩

/-!
### The model router — `LLMInterface` (llm_interface.py)

API keys are modelled as `Option String` (`None` vs. the environment
variable's value), with Python truthiness (`None` and `""` are falsy).
The HTTP transport is abstracted away: a successful `query_openai` /
`query_google` call is represented by the `ApiRequest` it issues
(provider, actual API model name, messages); raising is `Except.error`.
Float-valued parameters (temperature) are elided.
-/

/-- The Python exceptions relevant to the embedded code paths. -/
inductive PyExc where
  | valueError
  | typeError
  | nameError
  | httpStatusError (status : Nat)
  | connectTimeout
  | readTimeout
deriving DecidableEq, Repr

/-- Python truthiness of an optional string (`None` and `""` falsy). -/
def pyTruthyStr (o : Option String) : Bool :=
  match o with
  | some s => !s.isEmpty
  | Option.none => false

/-- Python `sub in s` on strings. -/
def pyInStr (sub s : String) : Bool :=
  pyInfix sub.toList s.toList

/-- The `provider` field of `model_configs` (lines 53–100). -/
def providerOf (m : String) : Option String :=
  if m = "gpt-4o-mini" ∨ m = "gpt-4o" then some ("openai")
  else if m = "gemini-1.5-flash" ∨ m = "gemini-1.5-flash-2.0" ∨ m = "gemini-1.5-pro" then
    some ("google")
  else Option.none

/-- The `model_name` field of the Google entries of `model_configs`. -/
def geminiApiName (m : String) : Option String :=
  if m = "gemini-1.5-flash" then some ("gemini-1.5-flash-latest")
  else if m = "gemini-1.5-flash-2.0" then some ("gemini-1.5-flash-2.0-experimental")
  else if m = "gemini-1.5-pro" then some ("gemini-1.5-pro-latest")
  else Option.none

/-- The state of an `LLMInterface` instance after `__init__`. -/
structure LLMInterface where
  openai_api_key : Option String
  google_api_key : Option String
  default_model : String
deriving DecidableEq, Repr

/-- `LLMInterface.__init__` (lines 17–51): pick a default model from
the available keys (lines 29–38), then realign it when its provider's
key is missing (lines 40–50).  `envDefaultModel` models
`os.environ.get("RESEARCHPAL_DEFAULT_MODEL")`. -/
def llm_init (default_model openaiKey googleKey envDefaultModel : Option String) :
    LLMInterface :=
  let dm0 :=
    match default_model with
    | Option.none =>
      if pyTruthyStr googleKey && !pyTruthyStr openaiKey then "gemini-1.5-flash"
      else envDefaultModel.getD "gpt-4o-mini"
    | some m => m
  let dm1 :=
    if pyInStr ("gemini") dm0 && !pyTruthyStr googleKey then
      (if pyTruthyStr openaiKey then "gpt-4o-mini" else dm0)
    else if pyInStr ("gpt") dm0 && !pyTruthyStr openaiKey then
      (if pyTruthyStr googleKey then "gemini-1.5-flash" else dm0)
    else dm0
  ⟨openaiKey, googleKey, dm1⟩

/-- `LLMInterface._select_provider` (lines 116–122): unknown models
default to `"openai"`. -/
def selectProvider (llm : LLMInterface) (model : Option String) : String :=
  (providerOf (model.getD llm.default_model)).getD "openai"

/-- `LLMInterface._get_actual_model_name` (lines 124–136). -/
def getActualModelName (llm : LLMInterface) (model : Option String) : String :=
  let m := model.getD llm.default_model
  if providerOf m = some ("google") then (geminiApiName m).getD m else m

/-- The HTTP request a successful transport call would issue. -/
structure ApiRequest where
  provider : String
  model_name : String
  messages : List (String × String)
deriving DecidableEq, Repr

/-- `LLMInterface.query_openai` (lines 143–205) up to the abstracted
HTTP POST: raises `ValueError` when the OpenAI key is missing (line
162), silently swaps a non-OpenAI model for the default (lines
169–171), and otherwise issues one request. -/
def query_openai (llm : LLMInterface) (prompt system_message : String)
    (model : Option String) : Except PyExc ApiRequest :=
  if !pyTruthyStr llm.openai_api_key then .error .valueError
  else
    let m := model.getD llm.default_model
    let m := if selectProvider llm (some m) ≠ "openai" then llm.default_model else m
    .ok ⟨"openai", getActualModelName llm (some m),
      (if system_message ≠ "" then [("system", system_message)] else []) ++
        [("user", prompt)]⟩

/-- `LLMInterface.query_google` (lines 212–303) up to the abstracted
HTTP POST: raises `ValueError` when the Google key is missing (line
231), defaults a missing model to gemini-1.5-flash (lines 234–235),
swaps a non-Google model for gemini-1.5-flash (lines 238–240), and
otherwise issues one request (the system message is wrapped in
`<system>` tags as a user turn). -/
def query_google (llm : LLMInterface) (prompt system_message : String)
    (model : Option String) : Except PyExc ApiRequest :=
  if !pyTruthyStr llm.google_api_key then .error .valueError
  else
    let m := model.getD "gemini-1.5-flash"
    let m := if selectProvider llm (some m) ≠ "google" then "gemini-1.5-flash" else m
    .ok ⟨"google", getActualModelName llm (some m),
      (if system_message ≠ "" then
        [("user", "<system>\n" ++ system_message ++ "\n</system>")] else []) ++
        [("user", prompt)]⟩

/-- `LLMInterface.query_model` (lines 305–344): resolve the provider of
the requested (or default) model and dispatch. -/
def query_model (llm : LLMInterface) (prompt system_message : String)
    (model : Option String) : Except PyExc ApiRequest :=
  let m := model.getD llm.default_model
  if selectProvider llm (some m) = "google" then
    query_google llm prompt system_message (some m)
  else
    query_openai llm prompt system_message (some m)

/-!
### Claim C3 — provider fallback on a one-sided credential gap
-/

/-- An interface constructed with an OpenAI key but no Google key. -/
def c3LLM : LLMInterface :=
  llm_init Option.none (some ("sk-test")) Option.none Option.none

/-- C3 counterexample: with the OpenAI credential present and the
Google credential absent (a one-sided gap), requesting the Google model
`gemini-1.5-flash` makes `query_model` **raise** `ValueError` — it does
not fall back to the OpenAI default model. -/
theorem C3_counterexample :
    pyTruthyStr c3LLM.openai_api_key = true ∧
      pyTruthyStr c3LLM.google_api_key = false ∧
      query_model c3LLM ("p") ("") (some ("gemini-1.5-flash")) = .error .valueError := by
  refine ⟨by decide, by decide, by rfl⟩

/-- **C3** (amended): the credential fallback exists only at
construction time — `__init__` switches a *default* model whose
provider's key is missing to the other provider's default (lines
40–50).  A per-call request routed to a provider whose credential is
absent makes `query_model` raise `ValueError` even when the other
provider's credential is present; when the resolved provider's
credential is present, `query_model` issues exactly one request to that
provider. -/
theorem query_model_fallback_only_at_init :
    (∀ (envDefault oKey gKey : Option String) (dflt : String),
      pyInStr ("gemini") dflt = true → pyTruthyStr gKey = false → pyTruthyStr oKey = true →
      (llm_init (some dflt) oKey gKey envDefault).default_model = "gpt-4o-mini") ∧
    (∀ (envDefault oKey gKey : Option String) (dflt : String),
      pyInStr ("gpt") dflt = true → pyTruthyStr oKey = false → pyTruthyStr gKey = true →
      (llm_init (some dflt) oKey gKey envDefault).default_model = "gemini-1.5-flash") ∧
    (∀ (llm : LLMInterface) (prompt sys m : String),
      selectProvider llm (some m) = "google" → pyTruthyStr llm.google_api_key = false →
      query_model llm prompt sys (some m) = .error .valueError) ∧
    (∀ (llm : LLMInterface) (prompt sys m : String),
      selectProvider llm (some m) = "openai" → pyTruthyStr llm.openai_api_key = false →
      query_model llm prompt sys (some m) = .error .valueError) ∧
    (∀ (llm : LLMInterface) (prompt sys m : String),
      selectProvider llm (some m) = "google" → pyTruthyStr llm.google_api_key = true →
      ∃ req, query_model llm prompt sys (some m) = .ok req ∧ req.provider = "google") ∧
    (∀ (llm : LLMInterface) (prompt sys m : String),
      selectProvider llm (some m) = "openai" → pyTruthyStr llm.openai_api_key = true →
      ∃ req, query_model llm prompt sys (some m) = .ok req ∧ req.provider = "openai") := by
  refine ⟨?_, ?_, ?_, ?_, ?_, ?_⟩
  · intro envDefault oKey gKey dflt h1 h2 h3
    simp [llm_init, h1, h2, h3]
  · intro envDefault oKey gKey dflt h1 h2 h3
    simp [llm_init, h1, h2, h3]
  · intro llm prompt sys m h1 h2
    simp only [query_model, Option.getD_some]
    rw [if_pos h1]
    simp [query_google, h2]
  · intro llm prompt sys m h1 h2
    simp only [query_model, Option.getD_some]
    rw [h1, if_neg (by decide)]
    simp [query_openai, h2]
  · intro llm prompt sys m h1 h2
    simp only [query_model, Option.getD_some]
    rw [if_pos h1]
    simp only [query_google, h2, Bool.not_true, Bool.false_eq_true, if_false]
    exact ⟨_, rfl, rfl⟩
  · intro llm prompt sys m h1 h2
    simp only [query_model, Option.getD_some]
    rw [h1, if_neg (by decide)]
    simp only [query_openai, h2, Bool.not_true, Bool.false_eq_true, if_false]
    exact ⟨_, rfl, rfl⟩

theorem query_model_fallback_only_at_init_witness :
    (llm_init (some ("gemini-1.5-pro")) (some ("sk-x")) Option.none
        Option.none).default_model = "gpt-4o-mini" ∧
      query_model (llm_init Option.none (some ("sk-x")) Option.none Option.none)
        ("p") ("") (some ("gemini-1.5-pro")) = .error .valueError ∧
      ∃ req, query_model (llm_init Option.none (some ("sk-x")) Option.none Option.none)
        ("p") ("") (some ("gpt-4o")) = .ok req ∧ req.provider = "openai" := by
  have h := query_model_fallback_only_at_init
  refine ⟨?_, ?_, ?_⟩
  · exact h.1 Option.none (some ("sk-x")) Option.none ("gemini-1.5-pro")
      (by decide) (by decide) (by decide)
  · exact h.2.2.1 (llm_init Option.none (some ("sk-x")) Option.none Option.none)
      ("p") ("") ("gemini-1.5-pro") (by decide) (by decide)
  · exact h.2.2.2.2.2 (llm_init Option.none (some ("sk-x")) Option.none Option.none)
      ("p") ("") ("gpt-4o") (by decide) (by decide)

/-!
### Claim C4 — the tenacity retry decorator (llm_interface.py, lines 138–142 and 207–211)

Both transport calls carry the identical decorator
`@retry(wait=wait_random_exponential(min=1, max=10),
stop=stop_after_attempt(3),
retry=retry_if_exception_type((httpx.HTTPStatusError, httpx.ConnectTimeout)))`.
The attempt bodies are abstracted as an oracle `attempt : Nat → Except
PyExc α` giving the outcome of each successive attempt; wall-clock
backoff delays do not affect which outcome is returned and are not
modelled.
-/

/-- `retry_if_exception_type((httpx.HTTPStatusError, httpx.ConnectTimeout))`.
Note that `raise_for_status` raises `httpx.HTTPStatusError` for **any**
non-success status — 4xx as well as 5xx. -/
def retryOnException (e : PyExc) : Bool :=
  match e with
  | .httpStatusError _ => true
  | .connectTimeout => true
  | _ => false

/-- The observable outcome of a tenacity-decorated call, together with
the number of attempts that were made. -/
inductive RetryOutcome (α : Type) where
  | ok (a : α) (attempts : Nat)
  | raised (e : PyExc) (attempts : Nat)
  | retryError (last : PyExc) (attempts : Nat)
deriving DecidableEq

/-- tenacity's driver for `stop_after_attempt stopAfter`: run attempt
`idx` (0-based); return on success; on a retryable exception retry
unless this was attempt number `stopAfter` (then tenacity raises
`RetryError`); on any other exception re-raise immediately.  The fuel
parameter only bounds the recursion and is unreachable at 0 whenever
`fuel ≥ stopAfter - idx`. -/
def tenacityGo {α : Type} (attempt : Nat → Except PyExc α) (stopAfter : Nat) :
    Nat → Nat → RetryOutcome α
  | 0, idx => .retryError .connectTimeout idx
  | fuel + 1, idx =>
    match attempt idx with
    | .ok a => .ok a (idx + 1)
    | .error e =>
      if retryOnException e then
        if idx + 1 < stopAfter then tenacityGo attempt stopAfter fuel (idx + 1)
        else .retryError e (idx + 1)
      else .raised e (idx + 1)

/-- The decorated transport call: `stop_after_attempt(3)`. -/
def retriedCall {α : Type} (attempt : Nat → Except PyExc α) : RetryOutcome α :=
  tenacityGo attempt 3 3 0

def attemptsOf {α : Type} : RetryOutcome α → Nat
  | .ok _ n => n
  | .raised _ n => n
  | .retryError _ n => n

/-- A transport whose first two attempts fail with HTTP 404 and whose
third succeeds. -/
def c4Attempts : Nat → Except PyExc String :=
  fun i => if i < 2 then .error (.httpStatusError 404) else .ok ("x")

/-- C4 counterexample: HTTP 404 — a non-transient 4xx that is not a
rate limit — is in the decorator's retryable class, so a call failing
twice with 404 is retried and succeeds on the third attempt, instead of
propagating the 404 immediately without any retry. -/
theorem C4_counterexample :
    retryOnException (.httpStatusError 404) = true ∧
      retriedCall c4Attempts = .ok ("x") 3 :=
  ⟨rfl, rfl⟩

/-- **C4** (amended): each transport call makes at most 3 attempts;
an exception outside the decorator's retryable types
(`httpx.HTTPStatusError` — any status, 4xx included — and
`httpx.ConnectTimeout`) propagates immediately after a single attempt;
retryable failures are retried, succeeding if an attempt within the
first 3 succeeds, and surfacing as tenacity's `RetryError` after 3
retryable failures. -/
theorem retry_policy_spec :
    (∀ {α : Type} (attempt : Nat → Except PyExc α),
      attemptsOf (retriedCall attempt) ≤ 3) ∧
    (∀ {α : Type} (attempt : Nat → Except PyExc α) (e : PyExc),
      retryOnException e = false → attempt 0 = .error e →
      retriedCall attempt = .raised e 1) ∧
    (∀ {α : Type} (attempt : Nat → Except PyExc α) (e0 e1 : PyExc) (a : α),
      retryOnException e0 = true → retryOnException e1 = true →
      attempt 0 = .error e0 → attempt 1 = .error e1 → attempt 2 = .ok a →
      retriedCall attempt = .ok a 3) ∧
    (∀ {α : Type} (attempt : Nat → Except PyExc α) (e0 e1 e2 : PyExc),
      retryOnException e0 = true → retryOnException e1 = true →
      retryOnException e2 = true →
      attempt 0 = .error e0 → attempt 1 = .error e1 → attempt 2 = .error e2 →
      retriedCall attempt = .retryError e2 3) := by
  refine ⟨?_, ?_, ?_, ?_⟩
  · intro α attempt
    simp only [retriedCall, tenacityGo]
    rcases attempt 0 with e0 | a0
    · by_cases hb0 : retryOnException e0
      · simp only [hb0, if_true, if_pos (by omega : 0 + 1 < 3)]
        rcases attempt 1 with e1 | a1
        · by_cases hb1 : retryOnException e1
          · simp only [hb1, if_true, if_pos (by omega : 1 + 1 < 3)]
            rcases attempt 2 with e2 | a2
            · by_cases hb2 : retryOnException e2
              · simp [hb2, attemptsOf]
              · simp [hb2, attemptsOf]
            · simp [attemptsOf]
          · simp [hb1, attemptsOf]
        · simp [attemptsOf]
      · simp [hb0, attemptsOf]
    · simp [attemptsOf]
  · intro α attempt e hret hatt
    simp [retriedCall, tenacityGo, hatt, hret]
  · intro α attempt e0 e1 a h0 h1 ha0 ha1 ha2
    simp [retriedCall, tenacityGo, ha0, ha1, ha2, h0, h1]
  · intro α attempt e0 e1 e2 h0 h1 h2 ha0 ha1 ha2
    simp [retriedCall, tenacityGo, ha0, ha1, ha2, h0, h1, h2]

/-- A transport that always fails with a non-retryable `ReadTimeout`. -/
def c4ReadTimeoutAttempts : Nat → Except PyExc String :=
  fun _ => .error .readTimeout

/-- A transport failing with a connect timeout, then HTTP 500, then
succeeding. -/
def c4RecoverAttempts : Nat → Except PyExc String :=
  fun i => if i = 0 then .error .connectTimeout
    else if i = 1 then .error (.httpStatusError 500) else .ok ("y")

theorem retry_policy_spec_witness :
    retriedCall c4ReadTimeoutAttempts = .raised .readTimeout 1 ∧
      retriedCall c4RecoverAttempts = .ok ("y") 3 := by
  have h := retry_policy_spec
  refine ⟨?_, ?_⟩
  · exact h.2.1 c4ReadTimeoutAttempts .readTimeout (by rfl) (by rfl)
  · exact h.2.2.1 c4RecoverAttempts .connectTimeout (.httpStatusError 500) ("y")
      (by rfl) (by rfl) (by rfl) (by rfl) (by rfl)

/-!
### Claim C5 — `merge_chunk_summaries` post-processing (llm_interface.py, lines 544–582)

The LLM call itself and `json.loads` are external; the response text
and the parser are parameters (`loads s = none` models
`json.JSONDecodeError`, the only exception the `except` clause
catches).  The embedded part is lines 544–582: brace extraction,
field filling, and the decode-failure fallback.
-/

/-- A Python value produced by `json.loads`. -/
inductive PyJson where
  | str (s : PyStr)
  | num (n : Int)
  | bool (b : Bool)
  | null
  | arr (xs : List PyJson)
  | obj (fields : List (PyStr × PyJson))

/-- The ten expected fields (lines 557–560), in source order. -/
def expected_fields : List PyStr :=
  (["OVERVIEW", "PROBLEM_STATEMENT", "METHODOLOGY", "ARCHITECTURE", "KEY_RESULTS",
    "IMPLICATIONS", "TAKEAWAYS", "FUTURE_DIRECTIONS", "BACKGROUND",
    "MATH_FORMULATIONS"]).map String.toList

/-- Lines 547–554: take the text between the first `{` and the last
`}` when both exist, otherwise the whole response. -/
def mergeExtractJson (response : PyStr) : PyStr :=
  let json_start := pyFindFull response [Char.ofNat 123]
  let json_end := pyRFind response [Char.ofNat 125] + 1
  if 0 ≤ json_start ∧ 0 < json_end then pySlice response json_start json_end
  else response

/-- Lines 562–564: `for field in expected_fields: if field not in
full_summary: full_summary[field] = ""`, on a dict. -/
def fillFold (fields : List PyStr) (kvs : List (PyStr × PyJson)) : List (PyStr × PyJson) :=
  fields.foldl
    (fun acc f => if (dictGet acc f).isSome then acc else acc ++ [(f, .str [])]) kvs

/-- The field-filling loop applied to an arbitrary decoded value.  On a
dict it fills missing keys with `""`; on a list, `field not in xs` is
element membership and the subsequent `full_summary[field] = ""` raises
`TypeError`; on a string, `field not in s` is a substring test and the
assignment raises `TypeError`; `in` on a number / boolean / `None`
raises `TypeError` immediately. -/
def mergeFill (v : PyJson) : Except PyExc PyJson :=
  match v with
  | .obj kvs => .ok (.obj (fillFold expected_fields kvs))
  | .arr xs =>
    if expected_fields.all
        (fun f => xs.any (fun x => match x with | .str s => s = f | _ => false)) then
      .ok (.arr xs)
    else .error .typeError
  | .str s =>
    if expected_fields.all (fun f => pyInfix f s) then .ok (.str s)
    else .error .typeError
  | .num _ => .error .typeError
  | .bool _ => .error .typeError
  | .null => .error .typeError

/-- The decode-failure fallback dict (lines 571–582). -/
def mergeFallbackFields (response : PyStr) : List (PyStr × PyJson) :=
  [(("OVERVIEW").toList, .str (pySlice response 0 500)),
   (("PROBLEM_STATEMENT").toList, .str []),
   (("METHODOLOGY").toList, .str []),
   (("ARCHITECTURE").toList, .str []),
   (("KEY_RESULTS").toList, .str []),
   (("IMPLICATIONS").toList, .str []),
   (("TAKEAWAYS").toList, .arr []),
   (("FUTURE_DIRECTIONS").toList, .arr []),
   (("BACKGROUND").toList, .str []),
   (("MATH_FORMULATIONS").toList, .str [])]

/-- The post-processing of `merge_chunk_summaries` (lines 544–582),
parameterized by the decoder. -/
def merge_chunk_summaries_post (loads : PyStr → Option PyJson) (response : PyStr) :
    Except PyExc PyJson :=
  match loads (mergeExtractJson response) with
  | some v => mergeFill v
  | Option.none => .ok (.obj (mergeFallbackFields response))

/- Dictionary-filling lemmas. -/

theorem dictGet_append {α : Type} (d e : List (PyStr × α)) (k : PyStr) :
    dictGet (d ++ e) k =
      match dictGet d k with
      | some v => some v
      | Option.none => dictGet e k := by
  induction d with
  | nil => rfl
  | cons kv rest ih =>
    obtain ⟨k', v'⟩ := kv
    by_cases h : k' = k
    · simp [dictGet, h]
    · simp only [List.cons_append, dictGet, if_neg h]
      exact ih

theorem fillFold_preserves (fields : List PyStr) :
    ∀ (kvs : List (PyStr × PyJson)) (k : PyStr) (v : PyJson),
      dictGet kvs k = some v → dictGet (fillFold fields kvs) k = some v := by
  induction fields with
  | nil => intro kvs k v h; exact h
  | cons f rest ih =>
    intro kvs k v h
    simp only [fillFold, List.foldl_cons] at *
    by_cases hf : (dictGet kvs f).isSome
    · rw [if_pos hf]
      exact ih kvs k v h
    · rw [if_neg hf]
      apply ih
      rw [dictGet_append, h]

theorem fillFold_isSome (fields : List PyStr) :
    ∀ (kvs : List (PyStr × PyJson)) (f : PyStr), f ∈ fields →
      (dictGet (fillFold fields kvs) f).isSome = true := by
  induction fields with
  | nil => intro kvs f h; simp at h
  | cons g rest ih =>
    intro kvs f hf
    simp only [fillFold, List.foldl_cons] at *
    rcases List.mem_cons.mp hf with hfg | hfr
    · subst hfg
      by_cases hg : (dictGet kvs f).isSome
      · rw [if_pos hg]
        obtain ⟨v, hv⟩ := Option.isSome_iff_exists.mp hg
        have hpres := fillFold_preserves rest kvs f v hv
        simp only [fillFold] at hpres
        rw [hpres]
        rfl
      · rw [if_neg hg]
        have hbase : dictGet (kvs ++ [(f, PyJson.str [])]) f = some (.str []) := by
          rw [dictGet_append]
          rw [Option.not_isSome_iff_eq_none.mp hg]
          simp [dictGet]
        have := fillFold_preserves rest _ f (.str []) hbase
        simp only [fillFold] at this
        rw [this]
        rfl
    · by_cases hg : (dictGet kvs g).isSome
      · rw [if_pos hg]
        exact ih kvs f hfr
      · rw [if_neg hg]
        exact ih _ f hfr

theorem fillFold_absent (fields : List PyStr) :
    ∀ (kvs : List (PyStr × PyJson)) (f : PyStr), f ∈ fields →
      dictGet kvs f = Option.none →
      dictGet (fillFold fields kvs) f = some (.str []) := by
  induction fields with
  | nil => intro kvs f h; simp at h
  | cons g rest ih =>
    intro kvs f hf hnone
    simp only [fillFold, List.foldl_cons] at *
    by_cases hfg : f = g
    · subst hfg
      rw [if_neg (by simp [hnone])]
      have hbase : dictGet (kvs ++ [(f, PyJson.str [])]) f = some (.str []) := by
        rw [dictGet_append, hnone]
        simp [dictGet]
      have := fillFold_preserves rest _ f (.str []) hbase
      simp only [fillFold] at this
      exact this
    · rcases List.mem_cons.mp hf with h | hfr
      · exact absurd h hfg
      · by_cases hg : (dictGet kvs g).isSome
        · rw [if_pos hg]
          exact ih kvs f hfr hnone
        · rw [if_neg hg]
          apply ih _ f hfr
          rw [dictGet_append, hnone]
          show dictGet [(g, PyJson.str [])] f = Option.none
          simp only [dictGet]
          rw [if_neg (fun h : g = f => hfg h.symm)]

theorem pySlice_500_length_le (response : PyStr) :
    (pySlice response 0 500).length ≤ 500 := by
  unfold pySlice clampIdx
  simp only [List.length_drop, List.length_take]
  split <;> split <;> omega

/-- A decoder agreeing with Python's `json.loads` on the integer
literal `"123"` (the only input the counterexample evaluates it at):
`json.loads("123") == 123`. -/
def intLitLoads : PyStr → Option PyJson :=
  fun s => if s = ("123").toList then some (.num 123) else Option.none

/-- C5 counterexample: the model response `"123"` contains no braces,
so the whole response is decoded; `json.loads` yields the integer
`123`, and the field-filling loop then evaluates `"OVERVIEW" not in
123`, which raises `TypeError` — `merge_chunk_summaries` returns no
mapping at all for this response. -/
theorem C5_counterexample :
    intLitLoads (mergeExtractJson (("123").toList)) = some (.num 123) ∧
      merge_chunk_summaries_post intLitLoads (("123").toList) = .error .typeError :=
  ⟨by rfl, by rfl⟩

/-- **C5** (amended): whenever the extracted text fails to decode
(`json.JSONDecodeError`), the result is the fallback dict — all ten
expected keys present, `OVERVIEW` holding the (≤ 500-character) prefix
`response[:500]` of the raw response and every other field empty; and
whenever the extracted text decodes to a JSON **object**, the result is
that object with every absent expected key filled with `""` and every
present key's value preserved.  (A response decoding to a non-object
JSON value instead raises `TypeError`; see the counterexample.) -/
theorem merge_chunk_summaries_fields :
    (∀ (loads : PyStr → Option PyJson) (response : PyStr),
      loads (mergeExtractJson response) = Option.none →
      merge_chunk_summaries_post loads response = .ok (.obj (mergeFallbackFields response)) ∧
        (∀ f ∈ expected_fields, (dictGet (mergeFallbackFields response) f).isSome = true) ∧
        dictGet (mergeFallbackFields response) (("OVERVIEW").toList) =
          some (.str (pySlice response 0 500)) ∧
        (pySlice response 0 500).length ≤ 500) ∧
    (∀ (loads : PyStr → Option PyJson) (response : PyStr) (kvs : List (PyStr × PyJson)),
      loads (mergeExtractJson response) = some (.obj kvs) →
      merge_chunk_summaries_post loads response = .ok (.obj (fillFold expected_fields kvs)) ∧
        (∀ f ∈ expected_fields, (dictGet (fillFold expected_fields kvs) f).isSome = true) ∧
        (∀ k v, dictGet kvs k = some v → dictGet (fillFold expected_fields kvs) k = some v) ∧
        (∀ f ∈ expected_fields, dictGet kvs f = Option.none →
          dictGet (fillFold expected_fields kvs) f = some (.str []))) := by
  constructor
  · intro loads response h
    refine ⟨?_, ?_, ?_, pySlice_500_length_le response⟩
    · simp [merge_chunk_summaries_post, h]
    · intro f hf
      fin_cases hf <;> rfl
    · rfl
  · intro loads response kvs h
    refine ⟨?_, ?_, ?_, ?_⟩
    · simp [merge_chunk_summaries_post, h, mergeFill]
    · intro f hf
      exact fillFold_isSome expected_fields kvs f hf
    · intro k v hv
      exact fillFold_preserves expected_fields kvs k v hv
    · intro f hf hn
      exact fillFold_absent expected_fields kvs f hf hn

theorem merge_chunk_summaries_fields_witness :
    merge_chunk_summaries_post (fun _ => Option.none) (("hello").toList) =
        .ok (.obj (mergeFallbackFields (("hello").toList))) ∧
      (dictGet (fillFold expected_fields []) (("OVERVIEW").toList)).isSome = true := by
  have h := merge_chunk_summaries_fields
  constructor
  · exact (h.1 (fun _ => Option.none) (("hello").toList) (by rfl)).1
  · exact (h.2 (fun _ => some (.obj [])) (("x").toList) [] (by rfl)).2.1
      (("OVERVIEW").toList) (by simp [expected_fields])

/-!
### The summarizer — `PaperSummarizer` (summarizer.py)

Claims C1, C8 and C9.
-/

/-- POSIX `os.path.basename`: everything after the last `/`. -/
def osBasename (p : PyStr) : PyStr :=
  (p.reverse.takeWhile (· ≠ '/')).reverse

/-- `PaperSummarizer._generate_paper_id` (summarizer.py, lines 43–70):
take `basename(filepath)`, combine it with the title as
`f"{filename}_{title}"`, then normalize with `re.sub` and hash.
summarizer.py **never imports `re`** (its imports are os, logging,
asyncio, typing, json, hashlib, datetime), so evaluating the unbound
global name `re` at line 63 raises `NameError` on every call; execution
never reaches the md5 hashing. -/
def generate_paper_id (filepath title : PyStr) : Except PyExc PyStr :=
  let filename := osBasename filepath
  let _combined := filename ++ ('_' :: title)
  .error .nameError

/-- **C1** (code bug): `_generate_paper_id` never returns an ID at all —
the module does not import `re`, so line 63 (`re.sub(...)`) raises
`NameError` for every `(filepath, title)` input, including the
repository's own test input `("test.pdf", "Test Paper")`
(test_summarizer.py::test_generate_paper_id expects two equal IDs). -/
theorem C1_generate_paper_id_raises :
    generate_paper_id (("test.pdf").toList) (("Test Paper").toList) = .error .nameError ∧
      ∀ filepath title, generate_paper_id filepath title = .error .nameError :=
  ⟨rfl, fun _ _ => rfl⟩

/-- Python truthiness of a decoded JSON value. -/
def pyJsonTruthy : PyJson → Bool
  | .str s => !s.isEmpty
  | .num n => if n = 0 then false else true
  | .bool b => b
  | .null => false
  | .arr xs => !xs.isEmpty
  | .obj kvs => !kvs.isEmpty

/-- Python `d.get(k, dflt)` on a decoded JSON object. -/
def pyGet (d : List (PyStr × PyJson)) (k : PyStr) (dflt : PyJson) : PyJson :=
  (dictGet d k).getD dflt

/-- Python `a or b`. -/
def pyOrJson (a b : PyJson) : PyJson :=
  if pyJsonTruthy a then a else b

/-- Python `d.get(k, "")` on a string-valued dict. -/
def pyGetStrD (d : List (PyStr × PyStr)) (k : PyStr) : PyStr :=
  (dictGet d k).getD []

/-- The clean-up applied to a successful domain response
(summarizer.py lines 116–118): strip whitespace, then `"`, then `'`;
if longer than 50 characters, keep the part before the first `,`, then
before the first `" and "`, stripped. -/
def cleanupDomain (raw : PyStr) : PyStr :=
  let d0 := pyStrip raw
  let d1 := pyStripChars [Char.ofNat 34] d0
  let d2 := pyStripChars [Char.ofNat 39] d1
  if d2.length > 50 then
    pyStrip ((splitFirst ((" and ").toList) ((splitFirst [','] d2).1)).1)
  else d2

/-- `PaperSummarizer.determine_paper_domain` (lines 72–124) as a
function of the outcome of its single `query_model` call: the whole
body is wrapped in `try/except Exception`, returning `"Unknown"` on
**any** exception. -/
def determine_paper_domain (outcome : Except PyExc PyStr) : PyStr :=
  match outcome with
  | .ok s => cleanupDomain s
  | .error _ => ("Unknown").toList

/-- The inputs of the record-assembly stage of
`PaperSummarizer.summarize_paper` (lines 289–342): the outcomes of the
earlier pipeline stages.  `paper_id` is a parameter because
`_generate_paper_id` (line 284) currently always raises — see C1 — and
is independent of the domain logic. -/
structure SummarizeInputs where
  metadata : List (PyStr × PyStr)
  filepath : PyStr
  timestamp : PyStr
  paper_id : PyStr
  full_summary : List (PyStr × PyJson)
  analysis : List (PyStr × PyJson)
  similar_papers : PyJson
  highlighted_text : PyJson
  figures_tables : PyJson
  generate_code : Bool
  generate_blog : Bool
  codeRes : PyStr
  blogRes : PyStr

/-- The `result` dict built at lines 305–337 of summarizer.py. -/
structure PaperRecord where
  paper_id : PyStr
  title : PyStr
  filepath : PyStr
  timestamp : PyStr
  metadata : List (PyStr × PyStr)
  domain : PyStr
  summary : PyJson
  problem_statement : PyJson
  methodology : PyJson
  architecture : PyJson
  key_results : PyJson
  implications : PyJson
  takeaways : PyJson
  important_ideas : PyJson
  future_directions : PyJson
  novelty : PyJson
  limitations : PyJson
  practical_applications : PyJson
  related_work : PyJson
  background : PyJson
  math_formulations : PyJson
  similar_papers : PyJson
  highlighted_text : PyJson
  figures_tables : PyJson
  code_implementation : Option PyStr
  blog_post : Option PyStr

/-- Lines 289–342 of `summarize_paper`: determine the domain (degrading
to `"Unknown"`), extract the analysis fields with their fallbacks, and
assemble the result record; the optional code/blog outputs are attached
only when generated and truthy (lines 260–281 and 332–337). -/
def assembleResult (inp : SummarizeInputs) (domainOutcome : Except PyExc PyStr) :
    PaperRecord :=
  let domain := determine_paper_domain domainOutcome
  let code_implementation :=
    if inp.generate_code &&
        pyJsonTruthy (pyGet inp.full_summary (("ARCHITECTURE").toList) .null) then
      some inp.codeRes
    else Option.none
  let blog_post := if inp.generate_blog then some inp.blogRes else Option.none
  { paper_id := inp.paper_id
    title := pyGetStrD inp.metadata (("title").toList)
    filepath := inp.filepath
    timestamp := inp.timestamp
    metadata := inp.metadata
    domain := domain
    summary := pyGet inp.full_summary (("OVERVIEW").toList) (.str [])
    problem_statement := pyGet inp.full_summary (("PROBLEM_STATEMENT").toList) (.str [])
    methodology := pyGet inp.full_summary (("METHODOLOGY").toList) (.str [])
    architecture := pyGet inp.full_summary (("ARCHITECTURE").toList) (.str [])
    key_results := pyGet inp.full_summary (("KEY_RESULTS").toList) (.str [])
    implications := pyGet inp.full_summary (("IMPLICATIONS").toList) (.str [])
    takeaways := pyGet inp.analysis (("TAKEAWAYS").toList) (.arr [])
    important_ideas := pyGet inp.analysis (("IMPORTANT_IDEAS").toList) (.arr [])
    future_directions :=
      pyOrJson (pyGet inp.analysis (("FUTURE_IDEAS").toList) (.arr []))
        (pyGet inp.full_summary (("FUTURE_DIRECTIONS").toList) (.arr []))
    novelty :=
      pyOrJson (pyGet inp.analysis (("NOVELTY").toList) (.str []))
        (pyGet inp.full_summary (("IMPLICATIONS").toList) (.str []))
    limitations := pyGet inp.analysis (("LIMITATIONS").toList) (.arr [])
    practical_applications := pyGet inp.analysis (("PRACTICAL_APPLICATIONS").toList) (.arr [])
    related_work := pyGet inp.analysis (("RELATED_WORK").toList) (.str [])
    background := pyGet inp.full_summary (("BACKGROUND").toList) (.str [])
    math_formulations := pyGet inp.full_summary (("MATH_FORMULATIONS").toList) (.str [])
    similar_papers := inp.similar_papers
    highlighted_text := inp.highlighted_text
    figures_tables := inp.figures_tables
    code_implementation :=
      match code_implementation with
      | some c => if !c.isEmpty then some c else Option.none
      | Option.none => Option.none
    blog_post :=
      match blog_post with
      | some b => if !b.isEmpty then some b else Option.none
      | Option.none => Option.none }

/-- **C9** (confirmed): if the domain-classification LLM call raises
any exception, the assembled record is exactly the one obtained from
any other domain outcome with the `domain` field replaced by
`"Unknown"` — i.e. the failure does not propagate (assembly is total)
and no other field is affected. -/
theorem domain_degrades_to_unknown :
    ∀ (inp : SummarizeInputs) (e : PyExc) (o : Except PyExc PyStr),
      assembleResult inp (.error e) =
        { assembleResult inp o with domain := ("Unknown").toList } := by
  intro inp e o
  rfl

/-!
### Claim C8 — blog generation
-/

/-- The inputs of `generate_blog_post`. -/
structure BlogInputs where
  paper_summary : List (PyStr × PyJson)
  paper_title : PyStr
  blog_style_sample : PyStr

/-- Modelled from the spec: the body of
`LLMInterface.generate_blog_post` after its system-message assignment
is missing from the source snapshot (llm_interface.py ends mid-function
at line 855), so the call/return behaviour is taken from the spec
(§4.7): "Blog generator: one LLM call; returns raw text response, no
extraction".  The LLM call is an oracle from the prompt inputs to the
response text; the second component records the calls made. -/
def generate_blog_post (oracle : BlogInputs → PyStr) (inp : BlogInputs) :
    PyStr × List BlogInputs :=
  (oracle inp, [inp])

/-- **C8**: `generate_blog_post` issues exactly one LLM call and
returns the model's raw text unchanged; the caller (`summarize_paper`,
lines 272–281 and 336–337 — this part is in the source) attaches that
raw text unchanged to the record when blog generation was requested and
the response is non-empty. -/
theorem generate_blog_post_raw :
    (∀ (oracle : BlogInputs → PyStr) (inp : BlogInputs),
      (generate_blog_post oracle inp).1 = oracle inp ∧
        (generate_blog_post oracle inp).2.length = 1) ∧
    (∀ (inp : SummarizeInputs) (o : Except PyExc PyStr),
      inp.generate_blog = true → inp.blogRes.isEmpty = false →
      (assembleResult inp o).blog_post = some inp.blogRes) := by
  constructor
  · intro oracle inp
    exact ⟨rfl, rfl⟩
  · intro inp o hgen hne
    simp [assembleResult, hgen, hne]

/-- Concrete summarizer inputs with blog generation requested. -/
def c8Inp : SummarizeInputs :=
  { metadata := [], filepath := [], timestamp := [], paper_id := [],
    full_summary := [], analysis := [], similar_papers := .arr [],
    highlighted_text := .arr [], figures_tables := .arr [],
    generate_code := false, generate_blog := true,
    codeRes := [], blogRes := ("BLOG").toList }

theorem generate_blog_post_raw_witness :
    (generate_blog_post (fun _ => ("BLOG").toList) ⟨[], [], []⟩).1 = ("BLOG").toList ∧
      (assembleResult c8Inp (.ok [])).blog_post = some (("BLOG").toList) := by
  have h := generate_blog_post_raw
  refine ⟨(h.1 (fun _ => ("BLOG").toList) ⟨[], [], []⟩).1, ?_⟩
  exact h.2 c8Inp (.ok []) (by rfl) (by rfl)

end ResearchPal
